import Mathlib

/-!
Shallow embedding of the nebula1 backend (src/backend/server.js) and its
frontend score helper, with theorems checking the specification's claims.

Modelling conventions:
* MongoDB ObjectIds and timestamps are modelled as `Nat`.
* JavaScript numbers appearing in arithmetic are modelled exactly: plain
  arithmetic over `ℚ`, with the special values `NaN`/`Infinity` captured by
  the `JsNum` type where division can produce them.
* Request bodies are modelled field-by-field; a missing field is `none`.
* The external LLM call is a black box: handlers that consume its reply take
  the reply (or its decoded form) as an explicit argument.
-/

namespace Nebula

/-- Embedded lesson subdocument (`LessonSchema`, server.js lines 74-81). -/
structure Lesson where
  id : Int
  title : String
  content : String
  completed : Bool
  hasQuiz : Bool
  completedAt : Option Nat
deriving DecidableEq

/-- Learning-path document (`LearningPathSchema`, server.js lines 83-91).
`progress` is stored unrounded by the code, so it is a rational here. -/
structure LearningPath where
  _id : Nat
  userId : Nat
  title : String
  description : String
  progress : ℚ
  lessons : List Lesson
  createdAt : Nat
  updatedAt : Nat
deriving DecidableEq

/-- Error taxonomy of the API layer (spec section 7); `internal` is the
catch-all 500 a handler's `catch` block answers for an uncaught error such
as a database cast failure. -/
inductive ApiError where
  | unauthorized
  | notFound
  | validation
  | generation
  | internal
deriving DecidableEq

/-- HTTP status code attached to each error class. -/
def ApiError.status : ApiError → Nat
  | .unauthorized => 401
  | .notFound => 404
  | .validation => 400
  | .generation => 500
  | .internal => 500

/-- Number of lessons with `completed == true`
(`path.lessons.filter(l => l.completed).length`, server.js line 351). -/
def completedCount (lessons : List Lesson) : Nat :=
  (lessons.filter (fun l => l.completed)).length

/-- Progress recomputation `(completedCount / path.lessons.length) * 100`
(server.js line 352), over exact rationals. -/
def recomputedProgress (lessons : List Lesson) : ℚ :=
  ((completedCount lessons : ℚ) / (lessons.length : ℚ)) * 100

/-- In-place mutation of the lesson found by
`path.lessons.find(l => l.id === parseInt(req.params.lessonId))`
(server.js lines 342, 347-348): the first lesson whose `id` matches gets
`completed := true` and a completion timestamp. -/
def markFirstCompleted : List Lesson → Int → Nat → List Lesson
  | [], _, _ => []
  | l :: rest, lid, now =>
    if l.id = lid then
      { l with completed := true, completedAt := some now } :: rest
    else
      l :: markFirstCompleted rest lid now

/-- Owner-scoped path lookup
`LearningPath.findOne({ _id: req.params.id, userId: req.user._id })`
(server.js lines 314-317 and 333-336). -/
def findPath (store : List LearningPath) (uid pid : Nat) : Option LearningPath :=
  store.find? (fun p => p._id == pid && p.userId == uid)

/-- `path.save()` persists the mutated document back into the store. -/
def replaceDoc (store : List LearningPath) (p : LearningPath) : List LearningPath :=
  store.map (fun q => if q._id == p._id then p else q)

/-- Handler `GET /api/learning-paths/:id` (server.js lines 312-328). -/
def getPathHandler (store : List LearningPath) (uid pid : Nat) :
    Except ApiError LearningPath :=
  match findPath store uid pid with
  | none => .error .notFound
  | some p => .ok p

/-- Handler `PATCH /api/learning-paths/:id/lessons/:lessonId/complete`
(server.js lines 331-361): owner-scoped lookup, lesson lookup by id,
mark completed, recompute progress, save, respond with the path. -/
def completeLesson (store : List LearningPath) (uid pid : Nat) (lid : Int)
    (now : Nat) : Except ApiError (LearningPath × List LearningPath) :=
  match findPath store uid pid with
  | none => .error .notFound
  | some path =>
    match path.lessons.find? (fun l => l.id == lid) with
    | none => .error .notFound
    | some _ =>
      let lessons' := markFirstCompleted path.lessons lid now
      let path' := { path with
        lessons := lessons'
        progress := recomputedProgress lessons'
        updatedAt := now }
      .ok (path', replaceDoc store path')

/-- Lesson shape returned by the LLM gateway for path generation. -/
structure GenLesson where
  title : String
  content : String
deriving DecidableEq

/-- Decoded gateway reply for path generation: `{title, description, lessons[]}`. -/
structure GenPathData where
  title : String
  description : String
  lessons : List GenLesson
deriving DecidableEq

/-- Lesson construction `pathData.lessons.map((lesson, idx) => ({id: idx + 1, ...}))`
(server.js lines 276-282). -/
def buildLessons (genLessons : List GenLesson) : List Lesson :=
  genLessons.enum.map (fun p =>
    { id := (p.1 : Int) + 1
      title := p.2.title
      content := p.2.content
      completed := false
      hasQuiz := true
      completedAt := none })

/-- `LearningPath.create({..., progress: 0, lessons})` (server.js lines 284-290). -/
def createPathFromData (uid : Nat) (pathData : GenPathData) (newId now : Nat) :
    LearningPath :=
  { _id := newId
    userId := uid
    title := pathData.title
    description := pathData.description
    progress := 0
    lessons := buildLessons pathData.lessons
    createdAt := now
    updatedAt := now }

/-- JavaScript whitespace class used by `String.prototype.trim` (restricted to
the ASCII whitespace characters: space, tab, newline, carriage return,
vertical tab, form feed). -/
def isJsWs (c : Char) : Bool :=
  c = ' ' || c = Char.ofNat 9 || c = Char.ofNat 10 || c = Char.ofNat 13 ||
  c = Char.ofNat 11 || c = Char.ofNat 12

/-- `topic.trim()` (server.js line 238). -/
def jsTrim (s : List Char) : List Char :=
  ((s.dropWhile isJsWs).reverse.dropWhile isJsWs).reverse

/-- Handler `POST /api/learning-paths/generate` (server.js lines 234-297).
`topic = none` models a missing (or otherwise falsy) `topic` field; the
composite LLM call + JSON extraction + field decoding is the `gen` argument
(`none` models any failure of that stage; the extraction/parse stage itself is
modelled separately by `generatePathParse`). The third component of the result
records whether the LLM gateway was invoked. -/
def generatePathHandler (store : List LearningPath) (uid : Nat)
    (topic : Option String) (gen : Option GenPathData) (newId now : Nat) :
    Except ApiError LearningPath × List LearningPath × Bool :=
  match topic with
  | none => (.error .validation, store, false)
  | some t =>
    if (jsTrim t.data).isEmpty then (.error .validation, store, false)
    else
      match gen with
      | none => (.error .generation, store, true)
      | some d =>
        let p := createPathFromData uid d newId now
        (.ok p, store ++ [p], true)

/-- Spec section 3 invariant: stored progress is derivable from the lessons'
completed flags as `100 × completedCount / totalLessons` (with `0/0 = 0` in
`ℚ`, covering the empty-lesson case). -/
def progressInvariant (p : LearningPath) : Prop :=
  p.progress = 100 * (completedCount p.lessons : ℚ) / (p.lessons.length : ℚ)

/-- Concrete lesson used in examples. -/
def demoLesson (i : Int) (c : Bool) : Lesson :=
  { id := i, title := "L", content := "C", completed := c, hasQuiz := true,
    completedAt := none }

/-- Fresh five-lesson path, no lesson completed. -/
def fivePathFresh : LearningPath :=
  { _id := 1, userId := 7, title := "T", description := "D", progress := 0,
    lessons := [demoLesson 1 false, demoLesson 2 false, demoLesson 3 false,
                demoLesson 4 false, demoLesson 5 false],
    createdAt := 0, updatedAt := 0 }

/-- Five-lesson path with lessons 1 and 2 already completed. -/
def fivePathTwoDone : LearningPath :=
  { _id := 2, userId := 7, title := "T", description := "D", progress := 40,
    lessons := [demoLesson 1 true, demoLesson 2 true, demoLesson 3 false,
                demoLesson 4 false, demoLesson 5 false],
    createdAt := 0, updatedAt := 0 }

/-- JavaScript number model for the score arithmetic: an exact rational or
one of the special values `NaN`, `Infinity`, `-Infinity`. -/
inductive JsNum where
  | num (q : ℚ)
  | nan
  | inf
  | ninf
deriving DecidableEq

/-- JavaScript division. `0/0 = NaN`, `x/0 = ±Infinity` for `x ≠ 0`
(signed zero is not modelled: the dividends and divisors in this code are
counts and lengths). -/
def jsDiv : JsNum → JsNum → JsNum
  | .num a, .num b =>
    if b = 0 then (if a = 0 then .nan else if 0 < a then .inf else .ninf)
    else .num (a / b)
  | .nan, _ => .nan
  | .num _, .nan => .nan
  | .inf, .nan => .nan
  | .ninf, .nan => .nan
  | .inf, .inf => .nan
  | .inf, .ninf => .nan
  | .ninf, .inf => .nan
  | .ninf, .ninf => .nan
  | .inf, .num b => if 0 ≤ b then .inf else .ninf
  | .ninf, .num b => if 0 ≤ b then .ninf else .inf
  | .num _, .inf => .num 0
  | .num _, .ninf => .num 0

/-- JavaScript multiplication on the same model. -/
def jsMul : JsNum → JsNum → JsNum
  | .num a, .num b => .num (a * b)
  | .nan, _ => .nan
  | .num _, .nan => .nan
  | .inf, .nan => .nan
  | .ninf, .nan => .nan
  | .inf, .inf => .inf
  | .inf, .ninf => .ninf
  | .ninf, .inf => .ninf
  | .ninf, .ninf => .inf
  | .inf, .num b => if b = 0 then .nan else if 0 < b then .inf else .ninf
  | .num a, .inf => if a = 0 then .nan else if 0 < a then .inf else .ninf
  | .ninf, .num b => if b = 0 then .nan else if 0 < b then .ninf else .inf
  | .num a, .ninf => if a = 0 then .nan else if 0 < a then .ninf else .inf

/-- `Math.round`: round half towards positive infinity, i.e. `⌊x + 1/2⌋`;
the special values are fixed points. -/
def jsRound : JsNum → JsNum
  | .num q => .num (⌊q + 1/2⌋ : Int)
  | .nan => .nan
  | .inf => .inf
  | .ninf => .ninf

/-- The rounding the spec describes: `round(q)` as round-half-up. -/
def roundHalfUp (q : ℚ) : Int := ⌊q + 1/2⌋

/-- One generated multiple-choice question (quiz generation prompt shape,
server.js lines 388-399). -/
structure Question where
  question : String
  options : List String
  correct : Int
deriving DecidableEq

/-- Quiz-result document (`QuizResultSchema`, server.js lines 93-100). -/
structure QuizResult where
  _id : Nat
  userId : Nat
  pathId : Nat
  lessonId : Int
  score : JsNum
  answers : List Int
  completedAt : Nat
deriving DecidableEq

/-- JavaScript object lookup `answers[idx]` for an answers object keyed by
position; `none` models `undefined`. -/
def alookup : List (Nat × Int) → Nat → Option Int
  | [], _ => none
  | (k, v) :: rest, i => if k = i then some v else alookup rest i

/-- `Object.values(answers)`: own enumerable values, integer-like keys
iterated in ascending order (keys are assumed distinct, as in a JS object). -/
def objectValues (m : List (Nat × Int)) : List Int :=
  (m.mergeSort (fun a b => decide (a.1 ≤ b.1))).map (fun p => p.2)

/-- The `forEach` loop of `POST /api/quizzes/submit` (server.js lines 438-443):
count the positions `idx` with `answers[idx] === questions[idx].correct`. -/
def submitCorrectCount (answers : List (Nat × Int)) (questions : List Question) :
    Nat :=
  questions.enum.foldl
    (fun acc p => if alookup answers p.1 = some p.2.correct then acc + 1 else acc)
    0

/-- `Math.round((correctCount / questions.length) * 100)` (server.js line 445). -/
def submitScore (answers : List (Nat × Int)) (questions : List Question) : JsNum :=
  jsRound (jsMul
    (jsDiv (.num (submitCorrectCount answers questions)) (.num (questions.length)))
    (.num 100))

/-- Whether a JavaScript number is `NaN`. Mongoose's Number cast
(`castNumber`) asserts `!isNaN(val)`, so this is exactly the value the
`score: Number` schema path rejects. -/
def jsNumIsNaN : JsNum → Bool
  | .nan => true
  | _ => false

/-- Response body of `POST /api/quizzes/submit` (server.js lines 456-461). -/
structure SubmitResponse where
  score : JsNum
  correctCount : Nat
  totalQuestions : Nat
  resultId : Nat
deriving DecidableEq

/-- Handler `POST /api/quizzes/submit` (server.js lines 429-466).
The validation `if (!pathId || !lessonId || !answers || !questions)` rejects
missing fields and falsy values: for the numeric `lessonId` this includes `0`;
`answers` (an object) and `questions` (an array) are truthy whenever present,
even when empty. `QuizResult.create` casts `score` through the `score:
Number` schema path (server.js line 97); mongoose's Number cast rejects
`NaN`, so a `NaN` score makes `create` throw, the `catch` block answers 500,
and nothing is persisted. -/
def submitQuizHandler (uid : Nat) (pathId : Option Nat) (lessonId : Option Int)
    (answers : Option (List (Nat × Int))) (questions : Option (List Question))
    (store : List QuizResult) (newId now : Nat) :
    Except ApiError (SubmitResponse × List QuizResult) :=
  match pathId, lessonId, answers, questions with
  | some pid, some lid, some ans, some qs =>
    if lid = 0 then .error .validation
    else
      let c := submitCorrectCount ans qs
      let score := submitScore ans qs
      if jsNumIsNaN score then .error .internal
      else
        let result : QuizResult :=
          { _id := newId, userId := uid, pathId := pid, lessonId := lid,
            score := score, answers := objectValues ans, completedAt := now }
        .ok ({ score := score, correctCount := c, totalQuestions := qs.length,
               resultId := newId }, store ++ [result])
  | _, _, _, _ => .error .validation

/-- Ephemeral quiz held by the frontend (`setQuiz(response.data)`). -/
structure ClientQuiz where
  pathId : Nat
  lessonId : Int
  questions : List Question
deriving DecidableEq

/-- Frontend `calculateScore` (server.js lines 717-723): `0` when no quiz is
loaded, otherwise the filter-by-position count and the same rounded
percentage. -/
def calculateScore (quiz : Option ClientQuiz) (quizAnswers : List (Nat × Int)) :
    JsNum :=
  match quiz with
  | none => .num 0
  | some qz =>
    let correct := (qz.questions.enum.filter
      (fun p => decide (alookup quizAnswers p.1 = some p.2.correct))).length
    jsRound (jsMul (jsDiv (.num correct) (.num qz.questions.length)) (.num 100))

/-- Handler `GET /api/quizzes/history` (server.js lines 469-479):
`find({userId}).sort({completedAt: -1}).limit(20)`, modelled as a stable
descending sort by `completedAt` of the user's results, truncated to 20. -/
def quizHistory (uid : Nat) (store : List QuizResult) : List QuizResult :=
  (((store.filter (fun r => r.userId == uid)).mergeSort
    (fun a b => decide (b.completedAt ≤ a.completedAt))).take 20)

/-- The opening brace character. -/
def lbrace : Char := Char.ofNat 123

/-- The closing brace character. -/
def rbrace : Char := Char.ofNat 125

/-- The double-quote character. -/
def dquote : Char := Char.ofNat 34

/-- The backslash character. -/
def bslash : Char := Char.ofNat 92

/-- Semantics of the regex `responseText.match(/\x7b[\s\S]*\x7d/)` used at
server.js lines 268 and 404: the (unique) match is the substring running from
the first opening brace to the last closing brace, provided the latter comes
strictly after the former; otherwise there is no match. -/
def extractBraces (s : List Char) : Option (List Char) :=
  let rest := s.dropWhile (fun c => !(c == lbrace))
  if rest.isEmpty then none
  else
    let core := (rest.reverse.dropWhile (fun c => !(c == rbrace))).reverse
    if core.isEmpty then none else some core

/-- JSON whitespace (space, tab, line feed, carriage return). -/
def isJsonWs (c : Char) : Bool :=
  c = ' ' || c = Char.ofNat 9 || c = Char.ofNat 10 || c = Char.ofNat 13

/-- Skip leading JSON whitespace. -/
def skipWs (s : List Char) : List Char := s.dropWhile isJsonWs

/-- JSON values, as produced by `JSON.parse` (numbers restricted to the
integers, which are the only numbers this program's JSON payloads carry). -/
inductive Json where
  | jnull
  | jbool (b : Bool)
  | jnum (n : Int)
  | jstr (s : List Char)
  | jarr (xs : List Json)
  | jobj (kvs : List (List Char × Json))

/-- JSON string escape codes. -/
def escCharMap (c : Char) : Option Char :=
  if c = dquote then some dquote
  else if c = bslash then some bslash
  else if c = '/' then some '/'
  else if c = 'n' then some (Char.ofNat 10)
  else if c = 't' then some (Char.ofNat 9)
  else if c = 'r' then some (Char.ofNat 13)
  else if c = 'b' then some (Char.ofNat 8)
  else if c = 'f' then some (Char.ofNat 12)
  else none

/-- Parse the body of a JSON string after the opening quote, returning the
decoded characters and the remainder after the closing quote. -/
def parseStringBody : List Char → Option (List Char × List Char)
  | [] => none
  | c :: rest =>
    if c = dquote then some ([], rest)
    else if c = bslash then
      match rest with
      | [] => none
      | e :: rest2 =>
        match escCharMap e with
        | none => none
        | some ec =>
          match parseStringBody rest2 with
          | none => none
          | some (cs, r) => some (ec :: cs, r)
    else
      match parseStringBody rest with
      | none => none
      | some (cs, r) => some (c :: cs, r)

/-- Digit run to a natural number. -/
def digitsToNat (ds : List Char) : Nat :=
  ds.foldl (fun acc c => acc * 10 + (c.toNat - 48)) 0

/-- Parse a maximal nonempty digit run. -/
def parseDigits (s : List Char) : Option (Nat × List Char) :=
  let ds := s.takeWhile (fun c => c.isDigit)
  if ds.isEmpty then none
  else some (digitsToNat ds, s.dropWhile (fun c => c.isDigit))

mutual

/-- Fuel-indexed recursive-descent parser for one JSON value. -/
def parseValueF : Nat → List Char → Option (Json × List Char)
  | 0, _ => none
  | fuel + 1, s =>
    match skipWs s with
    | [] => none
    | c :: rest =>
      if c = lbrace then
        match skipWs rest with
        | [] => none
        | d :: rest2 =>
          if d = rbrace then some (.jobj [], rest2)
          else
            match parseMembers fuel (d :: rest2) with
            | none => none
            | some (kvs, r) => some (.jobj kvs, r)
      else if c = '[' then
        match skipWs rest with
        | [] => none
        | d :: rest2 =>
          if d = ']' then some (.jarr [], rest2)
          else
            match parseElems fuel (d :: rest2) with
            | none => none
            | some (xs, r) => some (.jarr xs, r)
      else if c = dquote then
        match parseStringBody rest with
        | none => none
        | some (cs, r) => some (.jstr cs, r)
      else if c = 't' then
        match rest with
        | 'r' :: 'u' :: 'e' :: r => some (.jbool true, r)
        | _ => none
      else if c = 'f' then
        match rest with
        | 'a' :: 'l' :: 's' :: 'e' :: r => some (.jbool false, r)
        | _ => none
      else if c = 'n' then
        match rest with
        | 'u' :: 'l' :: 'l' :: r => some (.jnull, r)
        | _ => none
      else if c = '-' then
        match parseDigits rest with
        | none => none
        | some (n, r) => some (.jnum (-(n : Int)), r)
      else
        match parseDigits (c :: rest) with
        | none => none
        | some (n, r) => some (.jnum (n : Int), r)

/-- Parse a nonempty comma-separated member list of a JSON object, up to and
including the closing brace. -/
def parseMembers : Nat → List Char → Option (List (List Char × Json) × List Char)
  | 0, _ => none
  | fuel + 1, s =>
    match skipWs s with
    | [] => none
    | c :: rest =>
      if c = dquote then
        match parseStringBody rest with
        | none => none
        | some (key, r1) =>
          match skipWs r1 with
          | ':' :: r2 =>
            match parseValueF fuel r2 with
            | none => none
            | some (v, r3) =>
              match skipWs r3 with
              | [] => none
              | d :: r4 =>
                if d = ',' then
                  match parseMembers fuel r4 with
                  | none => none
                  | some (kvs, r5) => some ((key, v) :: kvs, r5)
                else if d = rbrace then some ([(key, v)], r4)
                else none
          | _ => none
      else none

/-- Parse a nonempty comma-separated element list of a JSON array, up to and
including the closing bracket. -/
def parseElems : Nat → List Char → Option (List Json × List Char)
  | 0, _ => none
  | fuel + 1, s =>
    match parseValueF fuel s with
    | none => none
    | some (v, r) =>
      match skipWs r with
      | [] => none
      | d :: r2 =>
        if d = ',' then
          match parseElems fuel r2 with
          | none => none
          | some (xs, r3) => some (v :: xs, r3)
        else if d = ']' then some ([v], r2)
        else none

end

/-- Model of `JSON.parse` on a complete text: one JSON value surrounded only
by whitespace (numbers restricted to integers; `JSON.parse` throwing is
`none`). -/
def parseJsonText (s : List Char) : Option Json :=
  match parseValueF (s.length + 1) s with
  | none => none
  | some (v, r) => if (skipWs r).isEmpty then some v else none

/-- JavaScript property access on a parsed JSON value: last duplicate key
wins, as in `JSON.parse`; `none` models `undefined`. -/
def jsonGetKey (v : Json) (k : List Char) : Option Json :=
  match v with
  | .jobj kvs => kvs.foldl (fun acc p => if p.1 = k then some p.2 else acc) none
  | _ => none

/-- JavaScript truthiness of a parsed JSON value. -/
def jsTruthy : Json → Bool
  | .jnull => false
  | .jbool b => b
  | .jnum n => !(n == 0)
  | .jstr s => !s.isEmpty
  | .jarr _ => true
  | .jobj _ => true

/-- The key `"questions"`. -/
def questionsKey : List Char := "questions".data

/-- Truthiness of `quizData.questions` (`undefined` is falsy). -/
def questionsTruthy (v : Json) : Bool :=
  match jsonGetKey v questionsKey with
  | some j => jsTruthy j
  | none => false

/-- Extraction-and-parse stage of `POST /api/learning-paths/generate`
(server.js lines 267-273): regex match, `JSON.parse`, and the `!pathData`
check (`none` means the handler throws and answers 500). -/
def generatePathParse (reply : List Char) : Option Json :=
  match extractBraces reply with
  | none => none
  | some sub => parseJsonText sub

/-- Extraction-and-parse stage of `POST /api/quizzes/generate`
(server.js lines 403-409): regex match, `JSON.parse`, and the
`!quizData || !quizData.questions` check. -/
def generateQuizParse (reply : List Char) : Option Json :=
  match extractBraces reply with
  | none => none
  | some sub =>
    match parseJsonText sub with
    | none => none
    | some v => if questionsTruthy v then some v else none

/-! ## Helper lemmas -/

theorem length_markFirstCompleted (lessons : List Lesson) (lid : Int) (now : Nat) :
    (markFirstCompleted lessons lid now).length = lessons.length := by
  induction lessons with
  | nil => rfl
  | cons a rest ih =>
    by_cases ha : a.id = lid <;> simp [markFirstCompleted, ha, ih]

theorem find?_markFirstCompleted_of_mem (lessons : List Lesson) (lid : Int)
    (now : Nat) (h : ∃ l ∈ lessons, l.id = lid) :
    ∃ l', (markFirstCompleted lessons lid now).find? (fun l => l.id == lid) =
        some l' ∧ l'.completed = true ∧ l'.completedAt = some now := by
  induction lessons with
  | nil => simp at h
  | cons a rest ih =>
    by_cases ha : a.id = lid
    · exact ⟨{ a with completed := true, completedAt := some now },
        by simp [markFirstCompleted, ha, List.find?], rfl, rfl⟩
    · obtain ⟨l, hl, hlid⟩ := h
      rcases List.mem_cons.mp hl with rfl | hl
      · exact absurd hlid ha
      · obtain ⟨l', hfind, hc, ht⟩ := ih ⟨l, hl, hlid⟩
        refine ⟨l', ?_, hc, ht⟩
        simpa [markFirstCompleted, ha, List.find?] using hfind

theorem completedCount_buildLessons (gl : List GenLesson) :
    completedCount (buildLessons gl) = 0 := by
  have : (buildLessons gl).filter (fun l => l.completed) = [] := by
    rw [List.filter_eq_nil_iff]
    intro a ha
    simp only [buildLessons, List.mem_map] at ha
    obtain ⟨p, _, rfl⟩ := ha
    simp
  simp [completedCount, this]

theorem completeLesson_ok_shape (store : List LearningPath) (uid pid : Nat)
    (lid : Int) (now : Nat) (p' : LearningPath) (store' : List LearningPath)
    (h : completeLesson store uid pid lid now = .ok (p', store')) :
    ∃ path, findPath store uid pid = some path ∧
      (path.lessons.find? (fun l => l.id == lid)).isSome = true ∧
      p'.lessons = markFirstCompleted path.lessons lid now ∧
      p'.progress = recomputedProgress p'.lessons := by
  cases hf : findPath store uid pid with
  | none =>
    simp only [completeLesson, hf] at h
    exact Except.noConfusion h
  | some path =>
    cases hl : path.lessons.find? (fun l => l.id == lid) with
    | none =>
      simp only [completeLesson, hf, hl] at h
      exact Except.noConfusion h
    | some l0 =>
      simp only [completeLesson, hf, hl, Except.ok.injEq, Prod.mk.injEq] at h
      obtain ⟨h1, -⟩ := h
      refine ⟨path, rfl, by simp [hl], ?_, ?_⟩ <;> rw [← h1]

/-! ## Claim theorems -/

/-- C1: for every learning path and every lesson id present in it, the
complete-lesson operation marks the (first) lesson with that id completed,
records the completion timestamp, and recomputes the stored progress as
`100 × completedCount / totalLessons` (the stored semantics keep the exact
quotient: the code applies no rounding). In particular a 5-lesson path goes
to progress 20 after its first completion, and to 60 when lesson 3 is
completed after two others. -/
theorem completeLesson_marks_and_recomputes :
    (∀ (store : List LearningPath) (uid pid : Nat) (lid : Int) (now : Nat)
        (path : LearningPath),
        findPath store uid pid = some path →
        (∃ l ∈ path.lessons, l.id = lid) →
        ∃ path' store', completeLesson store uid pid lid now = .ok (path', store') ∧
          (∃ l', path'.lessons.find? (fun l => l.id == lid) = some l' ∧
            l'.completed = true ∧ l'.completedAt = some now) ∧
          path'.progress =
            100 * (completedCount path'.lessons : ℚ) / (path'.lessons.length : ℚ) ∧
          path'.lessons.length = path.lessons.length)
    ∧ (∃ p' st, completeLesson [fivePathFresh] 7 1 1 99 = .ok (p', st) ∧
        p'.progress = 20)
    ∧ (∃ p' st, completeLesson [fivePathTwoDone] 7 2 3 99 = .ok (p', st) ∧
        p'.progress = 60) := by
  refine ⟨?_, ?_, ?_⟩
  · intro store uid pid lid now path hfind hmem
    have hsome : (path.lessons.find? (fun l => l.id == lid)).isSome = true := by
      rw [List.find?_isSome]
      obtain ⟨l, hl, hlid⟩ := hmem
      exact ⟨l, hl, by simp [hlid]⟩
    obtain ⟨l0, hl0⟩ := Option.isSome_iff_exists.mp hsome
    obtain ⟨l', hfind', hc, ht⟩ :=
      find?_markFirstCompleted_of_mem path.lessons lid now hmem
    refine ⟨{ path with
        lessons := markFirstCompleted path.lessons lid now
        progress := recomputedProgress (markFirstCompleted path.lessons lid now)
        updatedAt := now },
      replaceDoc store { path with
        lessons := markFirstCompleted path.lessons lid now
        progress := recomputedProgress (markFirstCompleted path.lessons lid now)
        updatedAt := now },
      ?_, ⟨l', hfind', hc, ht⟩, ?_, ?_⟩
    · simp only [completeLesson, hfind, hl0]
    · show recomputedProgress (markFirstCompleted path.lessons lid now) = _
      simp only [recomputedProgress]
      ring_nf
    · exact length_markFirstCompleted path.lessons lid now
  · refine ⟨_, _, rfl, ?_⟩
    norm_num [completeLesson, findPath, fivePathFresh, demoLesson,
      markFirstCompleted, recomputedProgress, completedCount, List.find?]
  · refine ⟨_, _, rfl, ?_⟩
    norm_num [completeLesson, findPath, fivePathTwoDone, demoLesson,
      markFirstCompleted, recomputedProgress, completedCount, List.find?]

/-- Witness for C1: the general statement applied to the concrete fresh
five-lesson path. -/
theorem completeLesson_marks_and_recomputes_witness :
    ∃ path' store', completeLesson [fivePathFresh] 7 1 2 99 = .ok (path', store') ∧
      (∃ l', path'.lessons.find? (fun l => l.id == 2) = some l' ∧
        l'.completed = true ∧ l'.completedAt = some 99) ∧
      path'.progress =
        100 * (completedCount path'.lessons : ℚ) / (path'.lessons.length : ℚ) ∧
      path'.lessons.length = fivePathFresh.lessons.length :=
  completeLesson_marks_and_recomputes.1 [fivePathFresh] 7 1 2 99 fivePathFresh
    rfl ⟨demoLesson 2 false, by simp [fivePathFresh], rfl⟩

/-- C4: fetching a single path, or completing a lesson on a path, that does
not exist or is owned by a different user returns 404 NotFound with no data;
a successful fetch only ever returns a path owned by the caller; completing
a lesson id absent from an owned path also returns 404. -/
theorem not_found_scoping :
    ∀ (store : List LearningPath) (uid pid : Nat) (lid : Int) (now : Nat),
      ((¬ ∃ p ∈ store, p._id = pid ∧ p.userId = uid) →
        getPathHandler store uid pid = .error .notFound ∧
        completeLesson store uid pid lid now = .error .notFound)
      ∧ (∀ p, getPathHandler store uid pid = .ok p → p.userId = uid ∧ p ∈ store)
      ∧ (∀ path, findPath store uid pid = some path →
          (∀ l ∈ path.lessons, l.id ≠ lid) →
          completeLesson store uid pid lid now = .error .notFound)
      ∧ ApiError.notFound.status = 404 := by
  intro store uid pid lid now
  refine ⟨?_, ?_, ?_, rfl⟩
  · intro hno
    have hnone : findPath store uid pid = none := by
      rw [findPath, List.find?_eq_none]
      intro p hp hcontra
      simp only [Bool.and_eq_true, beq_iff_eq] at hcontra
      exact hno ⟨p, hp, hcontra⟩
    exact ⟨by rw [getPathHandler, hnone], by rw [completeLesson, hnone]⟩
  · intro p hp
    cases hf : findPath store uid pid with
    | none => rw [getPathHandler, hf] at hp; exact Except.noConfusion hp
    | some q =>
      rw [getPathHandler, hf] at hp
      obtain rfl : q = p := by simpa using hp
      have hpred := List.find?_some hf
      simp only [Bool.and_eq_true, beq_iff_eq] at hpred
      exact ⟨hpred.2, List.mem_of_find?_eq_some hf⟩
  · intro path hfind hnolesson
    have hnone : path.lessons.find? (fun l => l.id == lid) = none := by
      rw [List.find?_eq_none]
      intro l hl hcontra
      exact hnolesson l hl (by simpa using hcontra)
    simp only [completeLesson, hfind, hnone]

/-- Witness for C4: a store holding only a path of user 8; caller 7 gets 404
on both operations, and a lesson id missing from the caller's own path also
yields 404. -/
theorem not_found_scoping_witness :
    (getPathHandler [{ fivePathFresh with userId := 8 }] 7 1 = .error .notFound ∧
      completeLesson [{ fivePathFresh with userId := 8 }] 7 1 3 5 =
        .error .notFound) ∧
    completeLesson [fivePathFresh] 7 1 9 5 = .error .notFound := by
  constructor
  · exact (not_found_scoping [{ fivePathFresh with userId := 8 }] 7 1 3 5).1
      (by rintro ⟨p, hp, h1, h2⟩; simp [fivePathFresh] at hp; simp [hp] at h2)
  · exact (not_found_scoping [fivePathFresh] 7 1 9 5).2.2.1 fivePathFresh rfl
      (by intro l hl; simp [fivePathFresh, demoLesson] at hl;
          rcases hl with rfl | rfl | rfl | rfl | rfl <;> simp [demoLesson])

/-- C5: a create-path request whose topic is missing, empty, or
whitespace-only gets a 400 Validation response, does not invoke the LLM
gateway, and leaves the store unchanged. -/
theorem generate_path_topic_validation :
    ∀ (store : List LearningPath) (uid : Nat) (gen : Option GenPathData)
      (newId now : Nat) (topic : Option String),
      (topic = none ∨ ∃ t, topic = some t ∧ jsTrim t.data = []) →
      generatePathHandler store uid topic gen newId now =
        (.error .validation, store, false) ∧
      ApiError.validation.status = 400 := by
  intro store uid gen newId now topic htopic
  refine ⟨?_, rfl⟩
  rcases htopic with rfl | ⟨t, rfl, ht⟩
  · rfl
  · simp [generatePathHandler, ht]

/-- Witness for C5: a whitespace-only topic is rejected with 400 and the
store is untouched. -/
theorem generate_path_topic_validation_witness :
    generatePathHandler [fivePathFresh] 7 (some "  ") none 9 9 =
      (.error .validation, [fivePathFresh], false) ∧
    ApiError.validation.status = 400 :=
  generate_path_topic_validation [fivePathFresh] 7 none 9 9 (some "  ")
    (Or.inr ⟨"  ", rfl, by decide⟩)

/-- C6: a successfully generated path is persisted with sequential 1-based
lesson ids `1..n` in order, all lessons not completed, all lessons carrying
the quiz flag, and progress 0. -/
theorem created_path_shape :
    ∀ (uid : Nat) (pathData : GenPathData) (newId now : Nat),
      (createPathFromData uid pathData newId now).progress = 0 ∧
      (createPathFromData uid pathData newId now).lessons.map (fun l => l.id) =
        (List.range pathData.lessons.length).map (fun (k : Nat) => (k : Int) + 1) ∧
      ∀ l ∈ (createPathFromData uid pathData newId now).lessons,
        l.completed = false ∧ l.hasQuiz = true ∧ l.completedAt = none := by
  intro uid pathData newId now
  refine ⟨rfl, ?_, ?_⟩
  · show (buildLessons pathData.lessons).map (fun l => l.id) = _
    rw [buildLessons, List.map_map, ← List.enum_map_fst pathData.lessons,
      List.map_map]
    rfl
  · intro l hl
    simp only [createPathFromData, buildLessons, List.mem_map] at hl
    obtain ⟨p, -, rfl⟩ := hl
    exact ⟨rfl, rfl, rfl⟩

/-- Witness for C6: a concrete two-lesson generation. -/
theorem created_path_shape_witness :
    (createPathFromData 7 ⟨"T", "D", [⟨"a", "b"⟩, ⟨"c", "d"⟩]⟩ 3 4).progress = 0 ∧
    (createPathFromData 7 ⟨"T", "D", [⟨"a", "b"⟩, ⟨"c", "d"⟩]⟩ 3 4).lessons.map
        (fun l => l.id) =
      (List.range 2).map (fun (k : Nat) => (k : Int) + 1) ∧
    ∀ l ∈ (createPathFromData 7 ⟨"T", "D", [⟨"a", "b"⟩, ⟨"c", "d"⟩]⟩ 3 4).lessons,
      l.completed = false ∧ l.hasQuiz = true ∧ l.completedAt = none :=
  created_path_shape 7 ⟨"T", "D", [⟨"a", "b"⟩, ⟨"c", "d"⟩]⟩ 3 4

/-- C7: every path reachable through the public operations satisfies the
progress invariant: creation establishes it and lesson completion
re-establishes it. -/
theorem progress_invariant_operations :
    (∀ (uid : Nat) (pathData : GenPathData) (newId now : Nat),
        progressInvariant (createPathFromData uid pathData newId now))
    ∧ (∀ (store : List LearningPath) (uid pid : Nat) (lid : Int) (now : Nat)
        (p' : LearningPath) (store' : List LearningPath),
        completeLesson store uid pid lid now = .ok (p', store') →
        progressInvariant p') := by
  constructor
  · intro uid pathData newId now
    show (0 : ℚ) = 100 * (completedCount (buildLessons pathData.lessons) : ℚ) / _
    rw [completedCount_buildLessons]
    simp
  · intro store uid pid lid now p' store' h
    obtain ⟨path, -, -, -, hprog⟩ := completeLesson_ok_shape store uid pid lid now
      p' store' h
    rw [progressInvariant, hprog, recomputedProgress]
    ring

/-- Witness for C7: both conjuncts applied at concrete inputs. -/
theorem progress_invariant_operations_witness :
    progressInvariant (createPathFromData 7 ⟨"T", "D", [⟨"a", "b"⟩]⟩ 3 4) ∧
    ∀ p' store', completeLesson [fivePathFresh] 7 1 1 99 = .ok (p', store') →
      progressInvariant p' :=
  ⟨progress_invariant_operations.1 7 ⟨"T", "D", [⟨"a", "b"⟩]⟩ 3 4,
   fun p' store' h =>
     progress_invariant_operations.2 [fivePathFresh] 7 1 1 99 p' store' h⟩

theorem foldl_count_eq_countP {α : Type} (p : α → Prop) [DecidablePred p]
    (l : List α) (acc : Nat) :
    l.foldl (fun a x => if p x then a + 1 else a) acc =
      acc + l.countP (fun x => decide (p x)) := by
  induction l generalizing acc with
  | nil => simp
  | cons x xs ih =>
    by_cases h : p x
    · simp [List.countP_cons, h, ih]
      omega
    · simp [List.countP_cons, h, ih]

theorem submitCorrectCount_eq_countP (ans : List (Nat × Int))
    (qs : List Question) :
    submitCorrectCount ans qs =
      qs.enum.countP (fun p => decide (alookup ans p.1 = some p.2.correct)) := by
  rw [submitCorrectCount, foldl_count_eq_countP]
  exact Nat.zero_add _

theorem length_cast_ne_zero {α : Type} (l : List α) (h : l ≠ []) :
    ((l.length : ℚ)) ≠ 0 := by
  have : l.length ≠ 0 := by simpa [List.length_eq_zero] using h
  exact_mod_cast this

theorem submitScore_eq_roundHalfUp (ans : List (Nat × Int)) (qs : List Question)
    (h : qs ≠ []) :
    submitScore ans qs =
      .num (roundHalfUp
        (100 * (submitCorrectCount ans qs : ℚ) / (qs.length : ℚ))) := by
  have hn := length_cast_ne_zero qs h
  simp only [submitScore, jsDiv, if_neg hn, jsMul, jsRound, roundHalfUp]
  have : ((submitCorrectCount ans qs : ℚ) / (qs.length : ℚ)) * 100 =
      100 * (submitCorrectCount ans qs : ℚ) / (qs.length : ℚ) := by ring
  rw [this]

/-- C2: for any submitted answers map and non-empty questions list, the
submit-quiz operation counts the positions whose answer equals that
question's `correct` index, scores `round(100 × correctCount /
questionCount)` (round-half-up), persists a `QuizResult` carrying exactly
that score, and returns the score — computed purely from the
client-supplied `answers` and `questions` (which are the handler's only
quiz inputs; nothing is re-validated against the generated quiz). -/
theorem submit_quiz_scores_and_persists :
    ∀ (uid pid : Nat) (lid : Int) (ans : List (Nat × Int)) (qs : List Question)
      (store : List QuizResult) (newId now : Nat),
      lid ≠ 0 → qs ≠ [] →
      submitCorrectCount ans qs =
        qs.enum.countP (fun p => decide (alookup ans p.1 = some p.2.correct)) ∧
      ∃ resp store',
        submitQuizHandler uid (some pid) (some lid) (some ans) (some qs) store
          newId now = .ok (resp, store') ∧
        resp.score = .num (roundHalfUp
          (100 * (submitCorrectCount ans qs : ℚ) / (qs.length : ℚ))) ∧
        resp.correctCount = submitCorrectCount ans qs ∧
        resp.totalQuestions = qs.length ∧
        store' = store ++
          [{ _id := newId
             userId := uid
             pathId := pid
             lessonId := lid
             score := resp.score
             answers := objectValues ans
             completedAt := now }] := by
  intro uid pid lid ans qs store newId now hlid hqs
  have hnn : jsNumIsNaN (submitScore ans qs) = false := by
    rw [submitScore_eq_roundHalfUp ans qs hqs]
    rfl
  refine ⟨submitCorrectCount_eq_countP ans qs, ?_⟩
  refine ⟨{ score := submitScore ans qs
            correctCount := submitCorrectCount ans qs
            totalQuestions := qs.length
            resultId := newId },
    store ++
      [{ _id := newId
         userId := uid
         pathId := pid
         lessonId := lid
         score := submitScore ans qs
         answers := objectValues ans
         completedAt := now }], ?_, ?_, rfl, rfl, rfl⟩
  · simp [submitQuizHandler, if_neg hlid, hnn]
  · exact submitScore_eq_roundHalfUp ans qs hqs

/-- Witness for C2: three questions, two answered correctly, one unanswered:
score 67, result persisted. -/
theorem submit_quiz_scores_and_persists_witness :
    submitCorrectCount [(0, 1), (1, 0)]
        [⟨"q1", [], 1⟩, ⟨"q2", [], 0⟩, ⟨"q3", [], 2⟩] =
      ([⟨"q1", [], 1⟩, ⟨"q2", [], 0⟩, ⟨"q3", [], 2⟩] :
        List Question).enum.countP
        (fun p => decide (alookup [(0, 1), (1, 0)] p.1 = some p.2.correct)) ∧
    ∃ resp store',
      submitQuizHandler 7 (some 3) (some 2) (some [(0, 1), (1, 0)])
        (some [⟨"q1", [], 1⟩, ⟨"q2", [], 0⟩, ⟨"q3", [], 2⟩]) [] 11 50 =
          .ok (resp, store') ∧
      resp.score = .num (roundHalfUp
        (100 * (submitCorrectCount [(0, 1), (1, 0)]
          [⟨"q1", [], 1⟩, ⟨"q2", [], 0⟩, ⟨"q3", [], 2⟩] : ℚ) /
          (([⟨"q1", [], 1⟩, ⟨"q2", [], 0⟩, ⟨"q3", [], 2⟩] :
            List Question).length : ℚ))) ∧
      resp.correctCount = submitCorrectCount [(0, 1), (1, 0)]
        [⟨"q1", [], 1⟩, ⟨"q2", [], 0⟩, ⟨"q3", [], 2⟩] ∧
      resp.totalQuestions =
        ([⟨"q1", [], 1⟩, ⟨"q2", [], 0⟩, ⟨"q3", [], 2⟩] : List Question).length ∧
      store' = [] ++
        [{ _id := 11
           userId := 7
           pathId := 3
           lessonId := 2
           score := resp.score
           answers := objectValues [(0, 1), (1, 0)]
           completedAt := 50 }] :=
  submit_quiz_scores_and_persists 7 3 2 [(0, 1), (1, 0)]
    [⟨"q1", [], 1⟩, ⟨"q2", [], 0⟩, ⟨"q3", [], 2⟩] [] 11 50
    (by decide) (by decide)

/-- C9: a submit-quiz request with an empty `questions` array (and the other
fields present and truthy) passes the required-fields validation — an empty
array is truthy in JavaScript — and the unguarded division `correctCount /
questions.length` is `0 / 0`, so the computed score is the non-numeric
`NaN` (round of `0/0`) and the request never answers 400 Validation: the
`NaN` score is instead rejected by the Number cast inside
`QuizResult.create`, so the request ends in the generic 500 with nothing
persisted. -/
theorem submit_quiz_empty_questions_nan :
    ∀ (uid pid : Nat) (lid : Int) (ans : List (Nat × Int))
      (store : List QuizResult) (newId now : Nat),
      lid ≠ 0 →
      submitScore ans [] =
        jsRound (jsMul (jsDiv (.num 0) (.num 0)) (.num 100)) ∧
      submitScore ans [] = JsNum.nan ∧
      submitQuizHandler uid (some pid) (some lid) (some ans) (some []) store
        newId now = .error .internal ∧
      submitQuizHandler uid (some pid) (some lid) (some ans) (some []) store
        newId now ≠ .error .validation ∧
      ApiError.internal.status = 500 ∧ ApiError.validation.status = 400 := by
  intro uid pid lid ans store newId now hlid
  have hscore : submitScore ans [] = JsNum.nan := by
    norm_num [submitScore, submitCorrectCount, jsDiv, jsMul, jsRound]
  have h0 : submitScore ans [] =
      jsRound (jsMul (jsDiv (.num 0) (.num 0)) (.num 100)) := by
    norm_num [submitScore, submitCorrectCount]
  have hhandler : submitQuizHandler uid (some pid) (some lid) (some ans)
      (some []) store newId now = .error .internal := by
    simp [submitQuizHandler, if_neg hlid, hscore, jsNumIsNaN]
  refine ⟨h0, hscore, hhandler, ?_, rfl, rfl⟩
  rw [hhandler]
  simp

/-- Witness for C9: concrete empty-questions submission whose score
computation is `NaN` and whose request ends in 500, not 400. -/
theorem submit_quiz_empty_questions_nan_witness :
    submitScore [(0, 1)] [] =
      jsRound (jsMul (jsDiv (.num 0) (.num 0)) (.num 100)) ∧
    submitScore [(0, 1)] [] = JsNum.nan ∧
    submitQuizHandler 7 (some 3) (some 2) (some [(0, 1)]) (some []) [] 11 50 =
      .error .internal ∧
    submitQuizHandler 7 (some 3) (some 2) (some [(0, 1)]) (some []) [] 11 50 ≠
      .error .validation ∧
    ApiError.internal.status = 500 ∧ ApiError.validation.status = 400 :=
  submit_quiz_empty_questions_nan 7 3 2 [(0, 1)] [] 11 50 (by decide)

/-- C10: on a non-empty questions list, the server-side submit score and the
frontend's `calculateScore` agree: both count answer-by-position matches
(a missing answer never counts) and round the same percentage. -/
theorem submit_score_matches_frontend :
    ∀ (ans : List (Nat × Int)) (qs : List Question) (pid : Nat) (lid : Int),
      qs ≠ [] →
      submitScore ans qs = calculateScore (some ⟨pid, lid, qs⟩) ans ∧
      ∀ p ∈ qs.enum, alookup ans p.1 = none →
        decide (alookup ans p.1 = some p.2.correct) = false := by
  intro ans qs pid lid hqs
  constructor
  · have hcount : submitCorrectCount ans qs =
        (qs.enum.filter
          (fun p => decide (alookup ans p.1 = some p.2.correct))).length := by
      rw [submitCorrectCount_eq_countP, List.countP_eq_length_filter]
    simp only [submitScore, calculateScore, hcount]
  · intro p _ hnone
    simp [hnone]

/-- Witness for C10: concrete agreement, including an unanswered position. -/
theorem submit_score_matches_frontend_witness :
    submitScore [(0, 1)] [⟨"q1", [], 1⟩, ⟨"q2", [], 0⟩] =
      calculateScore (some ⟨3, 2, [⟨"q1", [], 1⟩, ⟨"q2", [], 0⟩]⟩) [(0, 1)] ∧
    ∀ p ∈ ([⟨"q1", [], 1⟩, ⟨"q2", [], 0⟩] : List Question).enum,
      alookup [(0, 1)] p.1 = none →
        decide (alookup [(0, 1)] p.1 = some p.2.correct) = false :=
  submit_score_matches_frontend [(0, 1)] [⟨"q1", [], 1⟩, ⟨"q2", [], 0⟩] 3 2
    (by decide)

/-- The descending-by-`completedAt` comparison used by the history sort. -/
def byRecency (a b : QuizResult) : Bool := decide (b.completedAt ≤ a.completedAt)

theorem byRecency_trans :
    ∀ a b c, byRecency a b = true → byRecency b c = true → byRecency a c = true := by
  intro a b c hab hbc
  simp only [byRecency, decide_eq_true_eq] at *
  omega

theorem byRecency_total : ∀ a b, (byRecency a b || byRecency b a) = true := by
  intro a b
  simp only [byRecency, Bool.or_eq_true, decide_eq_true_eq]
  omega

/-- C8: quiz history returns at most 20 results, all owned by the requesting
user, ordered by completion timestamp descending, and they dominate (are at
least as recent as) every result of that user left out of the first 20. -/
theorem quiz_history_top20 :
    ∀ (uid : Nat) (store : List QuizResult),
      (quizHistory uid store).length ≤ 20 ∧
      (∀ r ∈ quizHistory uid store, r.userId = uid ∧ r ∈ store) ∧
      List.Pairwise (fun a b => b.completedAt ≤ a.completedAt)
        (quizHistory uid store) ∧
      ∀ r ∈ quizHistory uid store,
        ∀ q ∈ ((store.filter (fun r => r.userId == uid)).mergeSort
            (fun a b => decide (b.completedAt ≤ a.completedAt))).drop 20,
          q.completedAt ≤ r.completedAt := by
  intro uid store
  have hperm := List.mergeSort_perm (store.filter (fun r => r.userId == uid))
    (fun a b => decide (b.completedAt ≤ a.completedAt))
  have hsorted := @List.sorted_mergeSort QuizResult
    (fun a b => decide (b.completedAt ≤ a.completedAt))
    byRecency_trans byRecency_total (store.filter (fun r => r.userId == uid))
  have hsorted' : List.Pairwise (fun a b => b.completedAt ≤ a.completedAt)
      ((store.filter (fun r => r.userId == uid)).mergeSort
        (fun a b => decide (b.completedAt ≤ a.completedAt))) :=
    hsorted.imp (fun h => by simpa using h)
  refine ⟨List.length_take_le 20 _, ?_, ?_, ?_⟩
  · intro r hr
    have hmem : r ∈ store.filter (fun r => r.userId == uid) :=
      hperm.mem_iff.mp ((List.take_sublist 20 _).mem hr)
    obtain ⟨hstore, hbeq⟩ := List.mem_filter.mp hmem
    exact ⟨by simpa using hbeq, hstore⟩
  · exact hsorted'.sublist (List.take_sublist 20 _) |>.imp id |>.imp id
  · intro r hr q hq
    have hsplit : List.Pairwise (fun a b => b.completedAt ≤ a.completedAt)
        (((store.filter (fun r => r.userId == uid)).mergeSort
            (fun a b => decide (b.completedAt ≤ a.completedAt))).take 20 ++
          ((store.filter (fun r => r.userId == uid)).mergeSort
            (fun a b => decide (b.completedAt ≤ a.completedAt))).drop 20) := by
      rw [List.take_append_drop]
      exact hsorted'
    exact (List.pairwise_append.mp hsplit).2.2 r hr q hq

/-- Concrete store for the C8 witness: two results of user 7, one of user 8. -/
def demoQuizStore : List QuizResult :=
  [{ _id := 1, userId := 7, pathId := 1, lessonId := 1, score := .num 80,
     answers := [1], completedAt := 5 },
   { _id := 2, userId := 8, pathId := 2, lessonId := 1, score := .num 40,
     answers := [0], completedAt := 9 },
   { _id := 3, userId := 7, pathId := 1, lessonId := 2, score := .num 100,
     answers := [2], completedAt := 11 }]

/-- Witness for C8: the theorem applied to the concrete three-result store. -/
theorem quiz_history_top20_witness :
    (quizHistory 7 demoQuizStore).length ≤ 20 ∧
    (∀ r ∈ quizHistory 7 demoQuizStore, r.userId = 7 ∧ r ∈ demoQuizStore) ∧
    List.Pairwise (fun a b => b.completedAt ≤ a.completedAt)
      (quizHistory 7 demoQuizStore) ∧
    ∀ r ∈ quizHistory 7 demoQuizStore,
      ∀ q ∈ ((demoQuizStore.filter (fun r => r.userId == 7)).mergeSort
          (fun a b => decide (b.completedAt ≤ a.completedAt))).drop 20,
        q.completedAt ≤ r.completedAt :=
  quiz_history_top20 7 demoQuizStore

theorem head?_dropWhile_false {α : Type} (p : α → Bool) (l : List α) (a : α)
    (h : (l.dropWhile p).head? = some a) : p a = false := by
  induction l with
  | nil => simp at h
  | cons x xs ih =>
    rw [List.dropWhile_cons] at h
    by_cases hx : p x
    · rw [if_pos hx] at h
      exact ih h
    · rw [if_neg hx] at h
      simp only [List.head?_cons, Option.some.injEq] at h
      subst h
      exact Bool.eq_false_iff.mpr hx

theorem extractBraces_decompose (s t : List Char)
    (h : extractBraces s = some t) :
    ∃ pre post, s = pre ++ t ++ post ∧
      (∀ c ∈ pre, c ≠ lbrace) ∧ (∀ c ∈ post, c ≠ rbrace) ∧
      t.head? = some lbrace ∧ t.getLast? = some rbrace := by
  rw [extractBraces] at h
  set R := s.dropWhile (fun c => !(c == lbrace)) with hR
  set C := (R.reverse.dropWhile (fun c => !(c == rbrace))).reverse with hC
  by_cases h1 : R.isEmpty
  · rw [if_pos h1] at h
    exact Option.noConfusion h
  rw [if_neg h1] at h
  by_cases h2 : C.isEmpty
  · rw [if_pos h2] at h
    exact Option.noConfusion h
  rw [if_neg h2] at h
  obtain rfl : C = t := by simpa using h
  have hsplit : s.takeWhile (fun c => !(c == lbrace)) ++ R = s := by
    rw [hR]
    exact List.takeWhile_append_dropWhile _ _
  have hpost : C ++ (R.reverse.takeWhile (fun c => !(c == rbrace))).reverse =
      R := by
    have ha := List.takeWhile_append_dropWhile (fun c => !(c == rbrace)) R.reverse
    have hb := congrArg List.reverse ha
    rw [List.reverse_append, List.reverse_reverse] at hb
    rw [hC]
    exact hb
  have hCne : C ≠ [] := fun hc => h2 (by simp [hc])
  have hRD : R.reverse.dropWhile (fun c => !(c == rbrace)) ≠ [] := by
    intro hc
    apply hCne
    rw [hC, hc, List.reverse_nil]
  refine ⟨s.takeWhile (fun c => !(c == lbrace)),
    (R.reverse.takeWhile (fun c => !(c == rbrace))).reverse, ?_, ?_, ?_, ?_, ?_⟩
  · rw [List.append_assoc, hpost]
    exact hsplit.symm
  · intro c hc
    have := List.mem_takeWhile_imp hc
    simpa using this
  · intro c hc
    rw [List.mem_reverse] at hc
    have := List.mem_takeWhile_imp hc
    simpa using this
  · obtain ⟨a, ha⟩ : ∃ a, C.head? = some a := by
      cases hcs : C with
      | nil => exact absurd hcs hCne
      | cons x xs => exact ⟨x, rfl⟩
    have hRhead : R.head? = some a := by
      rw [← hpost]
      cases hcs : C with
      | nil => exact absurd hcs hCne
      | cons x xs =>
        rw [hcs] at ha
        simpa using ha
    have hpa := head?_dropWhile_false (fun c => !(c == lbrace)) s a
      (by rw [← hR]; exact hRhead)
    have haeq : a = lbrace := by simpa using hpa
    rw [ha, haeq]
  · rw [hC, List.getLast?_reverse]
    obtain ⟨b, hb⟩ : ∃ b,
        (R.reverse.dropWhile (fun c => !(c == rbrace))).head? = some b := by
      cases hcs : R.reverse.dropWhile (fun c => !(c == rbrace)) with
      | nil => exact absurd hcs hRD
      | cons x xs => exact ⟨x, rfl⟩
    have hpb := head?_dropWhile_false (fun c => !(c == rbrace)) R.reverse b hb
    have hbeq : b = rbrace := by simpa using hpb
    rw [hb, hbeq]

/-- C3 counterexample: the regex is greedy (first opening brace to the LAST
closing brace) and the quiz path additionally requires a truthy `questions`
field, so failure is not equivalent to "no JSON object substring or the
(first) JSON object fails to parse". In the reply consisting of the JSON
object followed by a stray closing brace, a parsable JSON object substring
is present, yet path generation fails; in the reply consisting of exactly
the empty JSON object, extraction and parsing both succeed, yet quiz
generation fails. -/
theorem generation_parse_counterexample :
    ("\x7b\"a\": 1\x7d \x7d").data =
      ("\x7b\"a\": 1\x7d").data ++ (" \x7d").data ∧
    (parseJsonText ("\x7b\"a\": 1\x7d").data).isSome = true ∧
    generatePathParse ("\x7b\"a\": 1\x7d \x7d").data = none ∧
    extractBraces ("\x7b\x7d").data = some ("\x7b\x7d").data ∧
    (parseJsonText ("\x7b\x7d").data).isSome = true ∧
    generateQuizParse ("\x7b\x7d").data = none :=
  ⟨rfl, rfl, rfl, rfl, rfl, rfl⟩

/-- C3 (amended): both generation operations extract the substring of the
reply running from the first opening brace to the last closing brace (the
greedy regex match) and parse it. Path generation fails iff there is no such
substring or parsing it fails; quiz generation fails iff additionally the
parsed object's `questions` field is absent or falsy. A parse-stage failure
is terminal: the handler answers 500 with no retry or repair. -/
theorem generation_parse_amended :
    (∀ reply : List Char,
      (generatePathParse reply = none ↔
        extractBraces reply = none ∨
        ∃ sub, extractBraces reply = some sub ∧ parseJsonText sub = none)) ∧
    (∀ reply : List Char,
      (generateQuizParse reply = none ↔
        extractBraces reply = none ∨
        ∃ sub, extractBraces reply = some sub ∧
          (parseJsonText sub = none ∨
            ∃ v, parseJsonText sub = some v ∧ questionsTruthy v = false))) ∧
    (∀ s t : List Char, extractBraces s = some t →
      ∃ pre post, s = pre ++ t ++ post ∧
        (∀ c ∈ pre, c ≠ lbrace) ∧ (∀ c ∈ post, c ≠ rbrace) ∧
        t.head? = some lbrace ∧ t.getLast? = some rbrace) ∧
    (∀ (store : List LearningPath) (uid newId now : Nat) (topic : String),
      jsTrim topic.data ≠ [] →
      generatePathHandler store uid (some topic) none newId now =
        (.error .generation, store, true)) ∧
    ApiError.generation.status = 500 := by
  refine ⟨?_, ?_, extractBraces_decompose, ?_, rfl⟩
  · intro reply
    cases he : extractBraces reply with
    | none => simp [generatePathParse, he]
    | some sub =>
      cases hp : parseJsonText sub with
      | none => simp [generatePathParse, he, hp]
      | some v => simp [generatePathParse, he, hp]
  · intro reply
    cases he : extractBraces reply with
    | none => simp [generateQuizParse, he]
    | some sub =>
      cases hp : parseJsonText sub with
      | none => simp [generateQuizParse, he, hp]
      | some v =>
        by_cases hq : questionsTruthy v
        · simp [generateQuizParse, he, hp, hq]
        · simp [generateQuizParse, he, hp, hq]
  · intro store uid newId now topic htopic
    have : (jsTrim topic.data).isEmpty = false := by
      simpa [List.isEmpty_iff] using htopic
    simp [generatePathHandler, this]

/-- Witness for C3 (amended): the decomposition conjunct applied to a
concrete reply with text on both sides of the braces, and the 500 conjunct
applied to a concrete topic. -/
theorem generation_parse_amended_witness :
    (∃ pre post, ("x\x7b1\x7d y").data = pre ++ ("\x7b1\x7d").data ++ post ∧
      (∀ c ∈ pre, c ≠ lbrace) ∧ (∀ c ∈ post, c ≠ rbrace) ∧
      ("\x7b1\x7d").data.head? = some lbrace ∧
      ("\x7b1\x7d").data.getLast? = some rbrace) ∧
    generatePathHandler [] 7 (some "T") none 1 2 =
      (.error .generation, [], true) :=
  ⟨generation_parse_amended.2.2.1 ("x\x7b1\x7d y").data ("\x7b1\x7d").data rfl,
   generation_parse_amended.2.2.2.1 [] 7 1 2 "T" (by decide)⟩

end Nebula
